import Mathlib

/-!
Verification development for the land-use HTTP backend (`server.js`).

The server is embedded shallowly:
* JavaScript values appearing in uploaded GeoJSON are modelled by `JSVal`,
  with JS truthiness (`truthy`) and nullishness (`nullish`).
* The Postgres session used by the upload handler is modelled by `DBState`
  (a committed table plus an optional in-transaction working copy) and the
  SQL commands the handler issues (`SqlCmd`, executed by `execCmd`).
  Database failures are injected by an oracle `fail : Nat → Option String`
  giving, per executed query index, the error message it fails with.
* The read endpoints (`/api/land_use`, `/api/filter/:type`, `/api/area/:type`)
  are modelled over a table of rows `LRow` (id, category label, geodesic
  area), with the SQL `ORDER BY id OFFSET .. LIMIT ..` embedded as
  sort-then-drop-then-take and `LOWER(..) = LOWER(..)` as ASCII lowercasing
  (`lowerStr`) equality.
-/

namespace Landuse

/-- Model of a JavaScript/JSON value as produced by `JSON.parse`
(plus `undefined`, which arises from missing-property access). -/
inductive JSVal where
  | jnull
  | jundefined
  | jbool (b : Bool)
  | jnum (n : Int)
  | jstr (s : String)
  | jarr (xs : List JSVal)
  | jobj (fields : List (String × JSVal))

/-- JS nullishness: `null` and `undefined`. -/
def nullish : JSVal → Bool
  | .jnull => true
  | .jundefined => true
  | _ => false

/-- JS truthiness: everything is truthy except `null`, `undefined`,
`false`, `0` and the empty string. -/
def truthy : JSVal → Bool
  | .jnull => false
  | .jundefined => false
  | .jbool b => b
  | .jnum n => n != 0
  | .jstr s => s != ""
  | .jarr _ => true
  | .jobj _ => true

/-- Look a key up in an object's field list (first binding wins);
`undefined` when absent. -/
def lookupField : List (String × JSVal) → String → JSVal
  | [], _ => .jundefined
  | (k', v) :: rest, k => if k' = k then v else lookupField rest k

/-- JS property access `v[k]` on a non-nullish value: `undefined` unless
`v` is an object that has the key. -/
def objLookup (v : JSVal) (k : String) : JSVal :=
  match v with
  | .jobj fields => lookupField fields k
  | _ => .jundefined

/-- JS property access `v.k`, which throws a `TypeError` when `v` is
nullish. -/
def getMember (v : JSVal) (k : String) : Except String JSVal :=
  match v with
  | .jnull => .error ("Cannot read properties of null (reading '" ++ k ++ "')")
  | .jundefined => .error ("Cannot read properties of undefined (reading '" ++ k ++ "')")
  | _ => .ok (objLookup v k)

/-- The value of `f.properties?.type` for a non-nullish feature `f`. -/
def propsType (f : JSVal) : JSVal :=
  if nullish (objLookup f "properties") then .jundefined
  else objLookup (objLookup f "properties") "type"

/-- A row of the `landuse` table as the upload handler inserts it:
the geometry (standing for the GeoJSON string fed through
`ST_SetSRID(ST_GeomFromGeoJSON(..), 4326)`) and the category label. -/
abbrev Row := JSVal × JSVal

/-- The row contributed by one feature of the upload, or `none` when the
feature is skipped: per lines 151-157 of `server.js`, a row is built iff
`f.geometry` is truthy (so `geomJSON` is non-null) and `f.properties?.type`
is truthy (so `typeVal`, coalesced through `|| null`, is non-null). -/
def rowOf (f : JSVal) : Option Row :=
  let g := objLookup f "geometry"
  let t := propsType f
  if truthy g && truthy t then some (g, t) else none

/-- `batch.forEach` of lines 150-158: build the rows of one batch,
propagating the `TypeError` thrown by `f.geometry` on a nullish element. -/
def batchRows : List JSVal → Except String (List Row)
  | [] => .ok []
  | f :: fs =>
    match getMember f "geometry" with
    | .error m => .error m
    | .ok _ =>
      match batchRows fs with
      | .error m => .error m
      | .ok rest =>
        match rowOf f with
        | some r => .ok (r :: rest)
        | none => .ok rest

/-- The batching loop of line 146: slices of up to 500 features,
in input order. -/
def batches (xs : List JSVal) : List (List JSVal) :=
  if xs.isEmpty then [] else xs.take 500 :: batches (xs.drop 500)
termination_by xs.length
decreasing_by
  rename_i h
  have hne : xs ≠ [] := by
    intro hx
    simp [hx] at h
  have : 0 < xs.length := List.length_pos.mpr hne
  simp [List.length_drop]
  omega

/-- SQL commands issued by the upload handler. -/
inductive SqlCmd where
  | beginTxn
  | deleteAll
  | insert (rows : List Row)
  | commitTxn
  | rollback

/-- The state of the Postgres session: the committed `landuse` table and,
while a transaction is open, its working copy. -/
structure DBState where
  committed : List Row
  working : Option (List Row)

/-- Transactional execution of one SQL command. -/
def execCmd : SqlCmd → DBState → DBState
  | .beginTxn, st => { st with working := some st.committed }
  | .deleteAll, st =>
    match st.working with
    | some _ => { st with working := some [] }
    | none => { committed := [], working := none }
  | .insert rs, st =>
    match st.working with
    | some w => { st with working := some (w ++ rs) }
    | none => { committed := st.committed ++ rs, working := none }
  | .commitTxn, st =>
    match st.working with
    | some w => { committed := w, working := none }
    | none => st
  | .rollback, st => { st with working := none }

/-- Running state of the batch-insert loop (lines 144-166): the index of
the next query, the session state, the `insertCount` accumulator, and the
trace of SQL commands executed so far. -/
structure RunSt where
  qi : Nat
  db : DBState
  count : Nat
  trace : List SqlCmd

/-- The loop of lines 146-166: for each batch, build its rows (a throw
aborts the loop), skip the batch when no row is insertable, otherwise
execute one INSERT (which may fail per the oracle) and add the *batch's
input size* to `insertCount`. -/
def runBatches (fail : Nat → Option String) :
    List (List JSVal) → RunSt → Except (String × RunSt) RunSt
  | [], s => .ok s
  | b :: bs, s =>
    match batchRows b with
    | .error m => .error (m, s)
    | .ok rows =>
      if rows.isEmpty then runBatches fail bs s
      else
        match fail s.qi with
        | some m => .error (m, s)
        | none =>
          runBatches fail bs
            { qi := s.qi + 1
              db := execCmd (.insert rows) s.db
              count := s.count + b.length
              trace := s.trace ++ [.insert rows] }

/-- Response body: a success `message` or an `error` string. -/
inductive ResBody where
  | msg (s : String)
  | err (s : String)
deriving DecidableEq

/-- JS `m || d` on strings: the empty string is falsy. -/
def jsOrStr (m d : String) : String := if m = "" then d else m

/-- Fallback error text of line 173. -/
def uploadFallback : String := "Failed to upload and save GeoJSON"

/-- Outcome of the try/catch part of the upload handler. -/
structure UpOut where
  status : Nat
  body : ResBody
  table : List Row
  rollbackAttempted : Bool
  trace : List SqlCmd

/-- The catch block of lines 170-173: attempt ROLLBACK (its own failure
is swallowed by `.catch(() => \x7b\x7d)`), respond 500 with
`e.message || 'Failed to upload and save GeoJSON'`. -/
def errOut (rbFails : Bool) (m : String) (db : DBState) (trace : List SqlCmd) : UpOut :=
  let db2 := if rbFails then db else execCmd .rollback db
  let trace2 := if rbFails then trace else trace ++ [.rollback]
  { status := 500
    body := .err (jsOrStr m uploadFallback)
    table := db2.committed
    rollbackAttempted := true
    trace := trace2 }

/-- Success message of line 169. -/
def successMsg (n : Nat) : String :=
  "GeoJSON uploaded and database updated successfully! Inserted " ++ toString n ++ " features."

/-- Result of the try block of lines 140-169: the first error (with the
session state and command trace at that point), or the final
`insertCount`, state and trace. -/
inductive TxnOutcome where
  | fails (m : String) (db : DBState) (trace : List SqlCmd)
  | succeeds (count : Nat) (db : DBState) (trace : List SqlCmd)

/-- The try block of lines 140-169: BEGIN (query 0), DELETE (query 1),
the batch loop (queries 2, 3, ...), then COMMIT. -/
def runTxnCore (fail : Nat → Option String) (init : List Row)
    (features : List JSVal) : TxnOutcome :=
  match fail 0 with
  | some m => .fails m { committed := init, working := none } []
  | none =>
    match fail 1 with
    | some m =>
      .fails m (execCmd .beginTxn { committed := init, working := none }) [.beginTxn]
    | none =>
      match runBatches fail (batches features)
          { qi := 2
            db := execCmd .deleteAll (execCmd .beginTxn { committed := init, working := none })
            count := 0
            trace := [.beginTxn, .deleteAll] } with
      | .error (m, s) => .fails m s.db s.trace
      | .ok s =>
        match fail s.qi with
        | some m => .fails m s.db s.trace
        | none => .succeeds s.count (execCmd .commitTxn s.db) (s.trace ++ [.commitTxn])

/-- Lines 140-173: the try block, with any failure routed through the
catch block and success answered with the message of line 169. -/
def runTxn (fail : Nat → Option String) (rbFails : Bool) (init : List Row)
    (features : List JSVal) : UpOut :=
  match runTxnCore fail init features with
  | .fails m db tr => errOut rbFails m db tr
  | .succeeds cnt db tr =>
    { status := 200
      body := .msg (successMsg cnt)
      table := db.committed
      rollbackAttempted := false
      trace := tr }

/-- Lines 136-138: the upload is valid iff `data.type` is exactly the
string FeatureCollection and `data.features` is an array; member access
throws on a nullish `data`. Returns the features list. -/
def validate (d : JSVal) : Except String (List JSVal) :=
  match getMember d "type" with
  | .error m => .error m
  | .ok t =>
    match t with
    | .jstr s =>
      if s = "FeatureCollection" then
        match getMember d "features" with
        | .error m => .error m
        | .ok fs =>
          match fs with
          | .jarr xs => .ok xs
          | _ => .error "Invalid GeoJSON format"
      else .error "Invalid GeoJSON format"
    | _ => .error "Invalid GeoJSON format"

/-- Full result of one POST /api/upload request. -/
structure UploadResult where
  status : Nat
  body : ResBody
  table : List Row
  rollbackAttempted : Bool
  trace : List SqlCmd
  fileDeleted : Bool

/-- The whole handler of lines 128-179. `file` is `none` when no file was
uploaded, `some (.error m)` when `JSON.parse` throws with message `m`,
`some (.ok d)` for a parsed value `d`. The `finally` block deletes the
temporary file on every path on which it exists. -/
def uploadHandler (fail : Nat → Option String) (rbFails : Bool) (init : List Row)
    (file : Option (Except String JSVal)) : UploadResult :=
  match file with
  | none =>
    { status := 400, body := .err "No file uploaded", table := init
      rollbackAttempted := false, trace := [], fileDeleted := false }
  | some pr =>
    let core : UpOut :=
      match pr with
      | .error m => errOut rbFails m { committed := init, working := none } []
      | .ok d =>
        match validate d with
        | .error m => errOut rbFails m { committed := init, working := none } []
        | .ok fs => runTxn fail rbFails init fs
    { status := core.status, body := core.body, table := core.table
      rollbackAttempted := core.rollbackAttempted, trace := core.trace
      fileDeleted := true }

/-- The oracle under which no query fails. -/
def noFail : Nat → Option String := fun _ => none

/-- The oracle under which exactly the `i`-th executed query fails,
with message `m`. -/
def failAt (i : Nat) (m : String) : Nat → Option String :=
  fun j => if j = i then some m else none

/-- Pure per-batch row list: the rows the features of a batch contribute. -/
def batchRowsPure (b : List JSVal) : List Row := b.filterMap rowOf

/-- The non-empty row lists actually inserted, one per INSERT statement. -/
def insBatches (bs : List (List JSVal)) : List (List Row) :=
  (bs.map batchRowsPure).filter (fun rs => !rs.isEmpty)

/-- The reported `insertCount`: the sum of the *input* sizes of the
batches that yielded at least one insertable row. -/
def countBatches (bs : List (List JSVal)) : Nat :=
  ((bs.filter (fun b => !(batchRowsPure b).isEmpty)).map List.length).sum

/-- All rows a feature list contributes, in input order. -/
def allRows (fs : List JSVal) : List Row := fs.filterMap rowOf

/-- Whether a SQL command is an INSERT. -/
def isInsert : SqlCmd → Bool
  | .insert _ => true
  | _ => false

/-! ### Read endpoints -/

/-- A stored row as the read endpoints see it: the server-assigned id,
the category label `type`, and the geodesic area `ST_Area(geom::geography)`
of its geometry in square meters (the database's area computation is an
external collaborator; its per-row result is data here). -/
structure LRow where
  id : Int
  typ : String
  area : ℚ
deriving DecidableEq

/-- ASCII lowercasing of one character, embedding SQL `LOWER`
(and kernel-reducible, unlike `Char.toLower`). -/
def lowerChar (c : Char) : Char :=
  if 65 ≤ c.toNat ∧ c.toNat ≤ 90 then Char.ofNat (c.toNat + 32) else c

/-- ASCII lowercasing of a string, embedding SQL `LOWER(..)`. -/
def lowerStr (s : String) : String := String.mk (s.toList.map lowerChar)

/-- Row order used by `ORDER BY id`. -/
def leId (a b : LRow) : Prop := a.id ≤ b.id

instance : DecidableRel leId := fun a b => inferInstanceAs (Decidable (a.id ≤ b.id))

instance : IsTotal LRow leId := ⟨fun a b => Int.le_total a.id b.id⟩

instance : IsTrans LRow leId := ⟨fun _ _ _ h h' => le_trans h h'⟩

/-- `ORDER BY id`: the table sorted ascending by identifier. -/
def sortById (tbl : List LRow) : List LRow := tbl.insertionSort leId

/-- A JS whitespace character (the common ones). -/
def jsSpace (c : Char) : Bool := c = ' ' || c = '\t' || c = '\n' || c = '\r'

/-- JS `parseInt(s, 10)`: skip leading whitespace, read an optional
sign and then the longest prefix of decimal digits; `none` models `NaN`. -/
def parseIntJS (s : String) : Option Int :=
  let cs := s.toList.dropWhile jsSpace
  let signed : Int × List Char :=
    match cs with
    | '-' :: r => (-1, r)
    | '+' :: r => (1, r)
    | r => (1, r)
  let ds := signed.2.takeWhile Char.isDigit
  if ds.isEmpty then none
  else some (signed.1 * (ds.foldl (fun a c => a * 10 + (c.toNat - 48)) 0 : Nat))

/-- JS `x || d` after `parseInt`: `NaN` (= `none`) and `0` are falsy. -/
def jsOrInt (x : Option Int) (d : Int) : Int :=
  match x with
  | none => d
  | some v => if v = 0 then d else v

/-- Line 50: `parseInt(req.query.limit, 10) || 1000`. -/
def effLimit (q : Option String) : Int := jsOrInt (q.bind parseIntJS) 1000

/-- Line 51: `parseInt(req.query.offset, 10) || 0`. -/
def effOffset (q : Option String) : Int := jsOrInt (q.bind parseIntJS) 0

/-- `ORDER BY id OFFSET $1 LIMIT $2` over a row list: Postgres rejects
negative OFFSET/LIMIT values, otherwise drop `offset` rows then take
`limit`. -/
def sqlPage (rows : List LRow) (offset limit : Int) : Except String (List LRow) :=
  if offset < 0 then .error "OFFSET must not be negative"
  else if limit < 0 then .error "LIMIT must not be negative"
  else .ok (((sortById rows).drop offset.toNat).take limit.toNat)

/-- A read endpoint's response body: a FeatureCollection (its features
standing for the `ST_AsGeoJSON` renderings of the rows) or an error. -/
inductive QRes where
  | fc (features : List LRow)
  | err (e : String)
deriving DecidableEq

/-- Lines 49-69, GET /api/land_use: paginated query over the whole table,
always 200 on success; on a database error, 500 with a fixed message. -/
def landUseHandler (dbFail : Option String) (tbl : List LRow)
    (ql qo : Option String) : Nat × QRes :=
  let limit := effLimit ql
  let offset := effOffset qo
  match dbFail with
  | some _ => (500, .err "Database error fetching land use")
  | none =>
    match sqlPage tbl offset limit with
    | .error _ => (500, .err "Database error fetching land use")
    | .ok fs => (200, .fc fs)

/-- The WHERE clause of the filter endpoint (line 84):
`LOWER(type) = LOWER($1)`. -/
def filterSel (tbl : List LRow) (t : String) : List LRow :=
  tbl.filter (fun r => lowerStr r.typ == lowerStr t)

/-- Lines 72-98, GET /api/filter/:type: the same paginated query filtered
case-insensitively by category; 404 when the page is empty. -/
def filterHandler (dbFail : Option String) (tbl : List LRow) (t : String)
    (ql qo : Option String) : Nat × QRes :=
  let limit := effLimit ql
  let offset := effOffset qo
  match dbFail with
  | some _ => (500, .err "Database error filtering land use")
  | none =>
    match sqlPage (filterSel tbl t) offset limit with
    | .error _ => (500, .err "Database error filtering land use")
    | .ok fs =>
      if fs.isEmpty then (404, .err ("No features found with type '" ++ t ++ "'"))
      else (200, .fc fs)

/-- The WHERE clause of the area endpoint (line 108):
`LOWER(type) = LOWER($1)`. -/
def areaMatching (tbl : List LRow) (t : String) : List LRow :=
  tbl.filter (fun r => lowerStr r.typ == lowerStr t)

/-- An area response: the echoed category name, total square meters,
total hectares, and feature count — or an error. -/
inductive ARes where
  | ok (typ : String) (sqm ha : ℚ) (cnt : Nat)
  | err (e : String)
deriving DecidableEq

/-- Lines 101-125, GET /api/area/:type: `COUNT(*)` and
`SUM(ST_Area(geom::geography))` over the case-insensitively matching rows
(`SUM` of no rows is NULL, coalesced to 0 by `|| 0`); 404 when the count
is zero, else 200 with the totals and `area / 10000` hectares. -/
def areaHandler (dbFail : Option String) (tbl : List LRow) (t : String) : Nat × ARes :=
  match dbFail with
  | some _ => (500, .err "Database error calculating area")
  | none =>
    let ms := areaMatching tbl t
    let count := ms.length
    let area : ℚ := (ms.map LRow.area).sum
    if count = 0 then (404, .err ("No features found with type '" ++ t ++ "'"))
    else (200, .ok t area (area / 10000) count)

/-- The effect of the successive INSERT statements on the session. -/
def insertFold (db : DBState) (rss : List (List Row)) : DBState :=
  rss.foldl (fun d rs => execCmd (.insert rs) d) db

/-! ### Concrete sample data (for witnesses and counterexamples) -/

/-- A sample GeoJSON geometry value. -/
def geoSample : JSVal := .jobj [("type", .jstr "Polygon"), ("coordinates", .jarr [])]

/-- A feature with a geometry and a category label. -/
def featGood : JSVal :=
  .jobj [("geometry", geoSample), ("properties", .jobj [("type", .jstr "Residential")])]

/-- A feature whose properties carry no category label. -/
def featNoType : JSVal := .jobj [("geometry", geoSample), ("properties", .jobj [])]

/-- A feature whose category label is present and non-null but the empty
string (falsy in JS). -/
def featEmptyType : JSVal :=
  .jobj [("geometry", geoSample), ("properties", .jobj [("type", .jstr "")])]

/-- A feature with a null geometry. -/
def featNullGeom : JSVal :=
  .jobj [("geometry", .jnull), ("properties", .jobj [("type", .jstr "Forest")])]

/-- A feature whose category label is the number 0 (falsy in JS). -/
def featZeroType : JSVal :=
  .jobj [("geometry", geoSample), ("properties", .jobj [("type", .jnum 0)])]

/-- A feature whose category label is `false` (falsy in JS). -/
def featFalseType : JSVal :=
  .jobj [("geometry", geoSample), ("properties", .jobj [("type", .jbool false)])]

/-- A FeatureCollection wrapping the given features. -/
def fcOf (xs : List JSVal) : JSVal :=
  .jobj [("type", .jstr "FeatureCollection"), ("features", .jarr xs)]

/-- Sample stored rows for the read endpoints. -/
def lrow1 : LRow := { id := 1, typ := "Residential", area := 100 }

/-- A second sample row, same category in different case. -/
def lrow2 : LRow := { id := 2, typ := "residential", area := 50 }

/-- A third sample row of another category. -/
def lrow3 : LRow := { id := 3, typ := "Forest", area := 20000 }

/-! ### Helper lemmas -/

theorem batches_eq (xs : List JSVal) :
    batches xs = if xs.isEmpty then [] else xs.take 500 :: batches (xs.drop 500) := by
  rw [batches]

theorem batches_flatten (xs : List JSVal) : (batches xs).flatten = xs := by
  rw [batches_eq]
  by_cases h : xs.isEmpty
  · simp [List.isEmpty_iff.mp h]
  · rw [if_neg h, List.flatten_cons, batches_flatten (xs.drop 500), List.take_append_drop]
termination_by xs.length
decreasing_by
  have hne : xs ≠ [] := by
    intro hx
    simp [hx] at h
  have : 0 < xs.length := List.length_pos.mpr hne
  simp [List.length_drop]
  omega

theorem length_le_of_mem_batches {b : List JSVal} {xs : List JSVal}
    (hb : b ∈ batches xs) : b.length ≤ 500 := by
  rw [batches_eq] at hb
  by_cases h : xs.isEmpty
  · rw [if_pos h] at hb
    simp at hb
  · rw [if_neg h] at hb
    rcases List.mem_cons.mp hb with rfl | hb'
    · calc (xs.take 500).length = min 500 xs.length := List.length_take 500 xs
        _ ≤ 500 := min_le_left _ _
    · exact length_le_of_mem_batches hb'
termination_by xs.length
decreasing_by
  have hne : xs ≠ [] := by
    intro hx
    simp [hx] at h
  have : 0 < xs.length := List.length_pos.mpr hne
  simp [List.length_drop]
  omega

theorem mem_of_mem_batches {f : JSVal} {b : List JSVal} {xs : List JSVal}
    (hb : b ∈ batches xs) (hf : f ∈ b) : f ∈ xs := by
  have : f ∈ (batches xs).flatten := List.mem_flatten.mpr ⟨b, hb, hf⟩
  rwa [batches_flatten] at this

theorem getMember_of_not_nullish {f : JSVal} (h : nullish f = false) (k : String) :
    getMember f k = .ok (objLookup f k) := by
  cases f <;> simp_all [nullish, getMember]

theorem batchRows_ok {b : List JSVal} {rows : List Row}
    (h : batchRows b = .ok rows) : rows = batchRowsPure b := by
  induction b generalizing rows with
  | nil =>
    simp [batchRows] at h
    simp [batchRowsPure, h.symm]
  | cons f fs ih =>
    rw [batchRows] at h
    cases hg : getMember f "geometry" with
    | error m => rw [hg] at h; exact absurd h (by simp)
    | ok g =>
      rw [hg] at h
      cases hr : batchRows fs with
      | error m => rw [hr] at h; exact absurd h (by simp)
      | ok rest =>
        rw [hr] at h
        have hrest : rest = batchRowsPure fs := ih hr
        cases hrow : rowOf f with
        | some r =>
          rw [hrow] at h
          simp at h
          rw [← h, hrest]
          simp [batchRowsPure, List.filterMap_cons, hrow]
        | none =>
          rw [hrow] at h
          simp at h
          rw [← h, hrest]
          simp [batchRowsPure, List.filterMap_cons, hrow]

theorem insBatches_cons_pos {b : List JSVal} {bs : List (List JSVal)}
    (h : (batchRowsPure b).isEmpty = false) :
    insBatches (b :: bs) = batchRowsPure b :: insBatches bs := by
  simp [insBatches, List.filter_cons, h]

theorem insBatches_cons_neg {b : List JSVal} {bs : List (List JSVal)}
    (h : batchRowsPure b = []) : insBatches (b :: bs) = insBatches bs := by
  simp [insBatches, List.filter_cons, h]

theorem countBatches_cons_pos {b : List JSVal} {bs : List (List JSVal)}
    (h : (batchRowsPure b).isEmpty = false) :
    countBatches (b :: bs) = b.length + countBatches bs := by
  simp [countBatches, List.filter_cons, h]

theorem countBatches_cons_neg {b : List JSVal} {bs : List (List JSVal)}
    (h : batchRowsPure b = []) : countBatches (b :: bs) = countBatches bs := by
  simp [countBatches, List.filter_cons, h]

theorem insBatches_flatten (bs : List (List JSVal)) :
    (insBatches bs).flatten = bs.flatten.filterMap rowOf := by
  induction bs with
  | nil => simp [insBatches]
  | cons b bs ih =>
    by_cases h : (batchRowsPure b).isEmpty
    · have hb : batchRowsPure b = [] := List.isEmpty_iff.mp h
      rw [insBatches_cons_neg hb, ih, List.flatten_cons, List.filterMap_append]
      have : b.filterMap rowOf = [] := hb
      rw [this, List.nil_append]
    · rw [insBatches_cons_pos (by simpa using h), List.flatten_cons, ih,
        List.flatten_cons, List.filterMap_append]
      rfl

theorem batchRows_of_not_nullish {b : List JSVal}
    (h : ∀ f ∈ b, nullish f = false) : batchRows b = .ok (batchRowsPure b) := by
  induction b with
  | nil => simp [batchRows, batchRowsPure]
  | cons f fs ih =>
    rw [batchRows, getMember_of_not_nullish (h f (List.mem_cons_self f fs)),
      ih (fun g hg => h g (List.mem_cons_of_mem f hg))]
    cases hrow : rowOf f <;> simp [batchRowsPure, List.filterMap_cons, hrow]

theorem insertFold_working (c w : List Row) (rss : List (List Row)) :
    insertFold { committed := c, working := some w } rss =
      { committed := c, working := some (w ++ rss.flatten) } := by
  induction rss generalizing w with
  | nil => simp [insertFold]
  | cons rs rss ih =>
    have h1 : insertFold { committed := c, working := some w } (rs :: rss)
        = insertFold { committed := c, working := some (w ++ rs) } rss := rfl
    rw [h1, ih, List.flatten_cons, List.append_assoc]

theorem runBatches_ok_spec {fail : Nat → Option String} {bs : List (List JSVal)}
    {s s' : RunSt} (h : runBatches fail bs s = .ok s') :
    s'.qi = s.qi + (insBatches bs).length ∧
    s'.db = insertFold s.db (insBatches bs) ∧
    s'.count = s.count + countBatches bs ∧
    s'.trace = s.trace ++ (insBatches bs).map SqlCmd.insert := by
  induction bs generalizing s with
  | nil =>
    simp [runBatches] at h
    simp [insBatches, countBatches, insertFold, ← h]
  | cons b bs ih =>
    rw [runBatches] at h
    cases hbr : batchRows b with
    | error m => rw [hbr] at h; exact absurd h (by simp)
    | ok rows =>
      rw [hbr] at h
      simp only [] at h
      have hrows : rows = batchRowsPure b := batchRows_ok hbr
      by_cases he : rows.isEmpty
      · rw [if_pos he] at h
        have hempty : batchRowsPure b = [] := by
          rw [← hrows]; exact List.isEmpty_iff.mp he
        obtain ⟨h1, h2, h3, h4⟩ := ih h
        rw [insBatches_cons_neg hempty, countBatches_cons_neg hempty]
        exact ⟨h1, h2, h3, h4⟩
      · rw [if_neg he] at h
        cases hf : fail s.qi with
        | some m => rw [hf] at h; exact absurd h (by simp)
        | none =>
          rw [hf] at h
          obtain ⟨h1, h2, h3, h4⟩ := ih h
          have hne : (batchRowsPure b).isEmpty = false := by
            rw [← hrows]; simpa using he
          rw [insBatches_cons_pos hne, countBatches_cons_pos hne]
          refine ⟨?_, ?_, ?_, ?_⟩
          · simp at h1; rw [h1]; simp [List.length_cons]; omega
          · rw [h2]
            simp only [insertFold, List.foldl_cons]
            rw [hrows]
          · simp at h3; rw [h3]; omega
          · rw [h4]
            simp [hrows, List.append_assoc]

theorem runBatches_err_committed {fail : Nat → Option String} {bs : List (List JSVal)}
    {s : RunSt} {m : String} {s' : RunSt} (hw : s.db.working.isSome = true)
    (h : runBatches fail bs s = .error (m, s')) :
    s'.db.committed = s.db.committed := by
  induction bs generalizing s with
  | nil => simp [runBatches] at h
  | cons b bs ih =>
    rw [runBatches] at h
    cases hbr : batchRows b with
    | error m0 =>
      rw [hbr] at h
      simp at h
      rw [← h.2]
    | ok rows =>
      rw [hbr] at h
      simp only [] at h
      by_cases he : rows.isEmpty
      · rw [if_pos he] at h
        exact ih hw h
      · rw [if_neg he] at h
        cases hf : fail s.qi with
        | some m0 =>
          rw [hf] at h
          simp at h
          rw [← h.2]
        | none =>
          rw [hf] at h
          obtain ⟨w, hww⟩ := Option.isSome_iff_exists.mp hw
          have hc : (execCmd (.insert rows) s.db).committed = s.db.committed := by
            cases hdb : s.db.working with
            | none => rw [hdb] at hww; cases hww
            | some w' => simp [execCmd, hdb]
          have hw2 : (execCmd (.insert rows) s.db).working.isSome = true := by
            cases hdb : s.db.working with
            | none => rw [hdb] at hww; cases hww
            | some w' => simp [execCmd, hdb]
          rw [← hc]
          exact ih hw2 h

theorem runBatches_failAt_msg {i : Nat} {m : String} {bs : List (List JSVal)}
    {s : RunSt} {m' : String} {s' : RunSt}
    (hok : ∀ b ∈ bs, batchRows b = .ok (batchRowsPure b))
    (h : runBatches (failAt i m) bs s = .error (m', s')) : m' = m := by
  induction bs generalizing s with
  | nil => simp [runBatches] at h
  | cons b bs ih =>
    rw [runBatches, hok b (List.mem_cons_self b bs)] at h
    simp only [] at h
    by_cases he : (batchRowsPure b).isEmpty
    · rw [if_pos he] at h
      exact ih (fun b' hb' => hok b' (List.mem_cons_of_mem b hb')) h
    · rw [if_neg he] at h
      cases hf : failAt i m s.qi with
      | some m0 =>
        rw [hf] at h
        simp at h
        have : m0 = m := by
          unfold failAt at hf
          by_cases hq : s.qi = i
          · rw [if_pos hq] at hf; exact (Option.some_injective _ hf).symm
          · rw [if_neg hq] at hf; cases hf
        rw [← h.1, this]
      | none =>
        rw [hf] at h
        exact ih (fun b' hb' => hok b' (List.mem_cons_of_mem b hb')) h

theorem failAt_some {i j : Nat} {m m0 : String} (h : failAt i m j = some m0) : m0 = m := by
  unfold failAt at h
  by_cases hq : j = i
  · rw [if_pos hq] at h
    exact (Option.some_injective _ h).symm
  · rw [if_neg hq] at h
    cases h

theorem errOut_status (rb : Bool) (m : String) (db : DBState) (tr : List SqlCmd) :
    (errOut rb m db tr).status = 500 := by cases rb <;> rfl

theorem errOut_body (rb : Bool) (m : String) (db : DBState) (tr : List SqlCmd) :
    (errOut rb m db tr).body = .err (jsOrStr m uploadFallback) := by cases rb <;> rfl

theorem errOut_table (rb : Bool) (m : String) (db : DBState) (tr : List SqlCmd) :
    (errOut rb m db tr).table = db.committed := by cases rb <;> rfl

theorem errOut_rbAtt (rb : Bool) (m : String) (db : DBState) (tr : List SqlCmd) :
    (errOut rb m db tr).rollbackAttempted = true := by cases rb <;> rfl

theorem runBatches_noFail_ok {bs : List (List JSVal)} (s : RunSt)
    (hok : ∀ b ∈ bs, batchRows b = .ok (batchRowsPure b)) :
    runBatches noFail bs s = .ok
      { qi := s.qi + (insBatches bs).length
        db := insertFold s.db (insBatches bs)
        count := s.count + countBatches bs
        trace := s.trace ++ (insBatches bs).map SqlCmd.insert } := by
  induction bs generalizing s with
  | nil => simp [runBatches, insBatches, countBatches, insertFold]
  | cons b bs ih =>
    rw [runBatches, hok b (List.mem_cons_self b bs)]
    simp only []
    by_cases he : (batchRowsPure b).isEmpty
    · rw [if_pos he]
      have hb : batchRowsPure b = [] := List.isEmpty_iff.mp he
      rw [ih s (fun b' hb' => hok b' (List.mem_cons_of_mem b hb'))]
      rw [insBatches_cons_neg hb, countBatches_cons_neg hb]
    · rw [if_neg he]
      show runBatches noFail bs _ = _
      rw [ih _ (fun b' hb' => hok b' (List.mem_cons_of_mem b hb'))]
      rw [insBatches_cons_pos (by simpa using he),
        countBatches_cons_pos (by simpa using he)]
      simp only [Except.ok.injEq, RunSt.mk.injEq]
      refine ⟨by simp; omega, ?_, by omega, by simp [List.append_assoc]⟩
      simp only [insertFold, List.foldl_cons]

theorem runTxnCore_fails_committed {fail : Nat → Option String} {init : List Row}
    {fs : List JSVal} {m : String} {db : DBState} {tr : List SqlCmd}
    (h : runTxnCore fail init fs = .fails m db tr) : db.committed = init := by
  unfold runTxnCore at h
  split at h
  · cases h; rfl
  · split at h
    · cases h; rfl
    · split at h
      · rename_i m' s heq
        cases h
        exact runBatches_err_committed (by rfl) heq
      · rename_i s heq
        split at h
        · cases h
          obtain ⟨-, h2, -, -⟩ := runBatches_ok_spec heq
          rw [h2]
          show (insertFold { committed := init, working := some [] }
            (insBatches (batches fs))).committed = init
          rw [insertFold_working]
        · cases h

theorem runTxnCore_succeeds_spec {fail : Nat → Option String} {init : List Row}
    {fs : List JSVal} {cnt : Nat} {db : DBState} {tr : List SqlCmd}
    (h : runTxnCore fail init fs = .succeeds cnt db tr) :
    db = { committed := allRows fs, working := none } ∧
    cnt = countBatches (batches fs) ∧
    tr = [SqlCmd.beginTxn, SqlCmd.deleteAll] ++
      (insBatches (batches fs)).map SqlCmd.insert ++ [SqlCmd.commitTxn] := by
  unfold runTxnCore at h
  split at h
  · cases h
  · split at h
    · cases h
    · split at h
      · cases h
      · rename_i s heq
        split at h
        · cases h
        · cases h
          obtain ⟨-, h2, h3, h4⟩ := runBatches_ok_spec heq
          refine ⟨?_, by rw [h3, Nat.zero_add], by rw [h4]⟩
          rw [h2]
          show execCmd .commitTxn (insertFold { committed := init, working := some [] }
            (insBatches (batches fs))) = _
          rw [insertFold_working, List.nil_append]
          simp only [execCmd]
          rw [insBatches_flatten, batches_flatten]
          rfl

theorem runTxnCore_failAt_msg {i : Nat} {m : String} {init : List Row}
    {fs : List JSVal} {m0 : String} {db : DBState} {tr : List SqlCmd}
    (hnn : ∀ f ∈ fs, nullish f = false)
    (h : runTxnCore (failAt i m) init fs = .fails m0 db tr) : m0 = m := by
  have hok : ∀ b ∈ batches fs, batchRows b = .ok (batchRowsPure b) :=
    fun b hb => batchRows_of_not_nullish (fun f hf => hnn f (mem_of_mem_batches hb hf))
  unfold runTxnCore at h
  split at h
  · rename_i heq
    cases h
    exact failAt_some heq
  · split at h
    · rename_i heq
      cases h
      exact failAt_some heq
    · split at h
      · rename_i m' s heq
        cases h
        exact runBatches_failAt_msg hok heq
      · rename_i s heq
        split at h
        · rename_i heq2
          cases h
          exact failAt_some heq2
        · cases h

theorem runTxnCore_noFail (init : List Row) (fs : List JSVal)
    (hnn : ∀ f ∈ fs, nullish f = false) :
    runTxnCore noFail init fs =
      .succeeds (countBatches (batches fs)) { committed := allRows fs, working := none }
        ([SqlCmd.beginTxn, SqlCmd.deleteAll] ++
          (insBatches (batches fs)).map SqlCmd.insert ++ [SqlCmd.commitTxn]) := by
  have hok : ∀ b ∈ batches fs, batchRows b = .ok (batchRowsPure b) :=
    fun b hb => batchRows_of_not_nullish (fun f hf => hnn f (mem_of_mem_batches hb hf))
  unfold runTxnCore
  simp only [noFail, execCmd]
  rw [runBatches_noFail_ok _ hok]
  simp only [noFail, execCmd]
  rw [insertFold_working]
  simp only [execCmd, List.nil_append, Nat.zero_add]
  rw [insBatches_flatten, batches_flatten]
  rfl

theorem runTxn_noFail (rb : Bool) (init : List Row) (fs : List JSVal)
    (hnn : ∀ f ∈ fs, nullish f = false) :
    runTxn noFail rb init fs =
      { status := 200
        body := .msg (successMsg (countBatches (batches fs)))
        table := allRows fs
        rollbackAttempted := false
        trace := [SqlCmd.beginTxn, SqlCmd.deleteAll] ++
          (insBatches (batches fs)).map SqlCmd.insert ++ [SqlCmd.commitTxn] } := by
  unfold runTxn
  rw [runTxnCore_noFail init fs hnn]

theorem runTxn_table (fail : Nat → Option String) (rb : Bool) (init : List Row)
    (fs : List JSVal) :
    (runTxn fail rb init fs).table = init ∨
      ((runTxn fail rb init fs).table = allRows fs ∧
        (runTxn fail rb init fs).status = 200) := by
  cases hc : runTxnCore fail init fs with
  | fails m db tr =>
    left
    unfold runTxn
    rw [hc]
    simp only []
    rw [errOut_table]
    exact runTxnCore_fails_committed hc
  | succeeds cnt db tr =>
    right
    unfold runTxn
    rw [hc]
    obtain ⟨hdb, -, -⟩ := runTxnCore_succeeds_spec hc
    exact ⟨by rw [hdb], rfl⟩

theorem runTxn_rb_swallow (fail : Nat → Option String) (init : List Row)
    (fs : List JSVal) :
    (runTxn fail true init fs).status = (runTxn fail false init fs).status ∧
    (runTxn fail true init fs).body = (runTxn fail false init fs).body ∧
    (runTxn fail true init fs).table = (runTxn fail false init fs).table := by
  unfold runTxn
  cases runTxnCore fail init fs with
  | fails m db tr =>
    exact ⟨by rw [errOut_status, errOut_status], by rw [errOut_body, errOut_body],
      by rw [errOut_table, errOut_table]⟩
  | succeeds cnt db tr => exact ⟨rfl, rfl, rfl⟩

theorem runTxn_rbAtt {fail : Nat → Option String} {rb : Bool} {init : List Row}
    {fs : List JSVal} (h : (runTxn fail rb init fs).status = 500) :
    (runTxn fail rb init fs).rollbackAttempted = true := by
  unfold runTxn at h ⊢
  cases hc : runTxnCore fail init fs with
  | fails m db tr =>
    simp only []
    rw [errOut_rbAtt]
  | succeeds cnt db tr =>
    rw [hc] at h
    simp only [] at h
    cases h

theorem runTxn_failAt_body {i : Nat} {m : String} {rb : Bool} {init : List Row}
    {fs : List JSVal} (hne : m ≠ "") (hnn : ∀ f ∈ fs, nullish f = false)
    (h5 : (runTxn (failAt i m) rb init fs).status = 500) :
    (runTxn (failAt i m) rb init fs).body = .err m := by
  have hjs : jsOrStr m uploadFallback = m := by simp [jsOrStr, hne]
  cases hc : runTxnCore (failAt i m) init fs with
  | fails m0 db tr =>
    unfold runTxn
    rw [hc]
    simp only []
    rw [errOut_body, runTxnCore_failAt_msg hnn hc, hjs]
  | succeeds cnt db tr =>
    unfold runTxn at h5
    rw [hc] at h5
    simp only [] at h5
    cases h5

theorem uploadHandler_noFail (rb : Bool) (init : List Row) (d : JSVal) (fs : List JSVal)
    (hv : validate d = .ok fs) (hnn : ∀ f ∈ fs, nullish f = false) :
    uploadHandler noFail rb init (some (.ok d)) =
      { status := 200
        body := .msg (successMsg (countBatches (batches fs)))
        table := allRows fs
        rollbackAttempted := false
        trace := [SqlCmd.beginTxn, SqlCmd.deleteAll] ++
          (insBatches (batches fs)).map SqlCmd.insert ++ [SqlCmd.commitTxn]
        fileDeleted := true } := by
  unfold uploadHandler
  simp only []
  rw [hv]
  simp only []
  rw [runTxn_noFail rb init fs hnn]

theorem upload_table_atomic (fail : Nat → Option String) (rb : Bool) (init : List Row)
    (file : Option (Except String JSVal)) :
    (uploadHandler fail rb init file).table = init ∨
      ∃ d fs, file = some (.ok d) ∧ validate d = .ok fs ∧
        (uploadHandler fail rb init file).table = allRows fs ∧
        (uploadHandler fail rb init file).status = 200 := by
  cases file with
  | none => left; rfl
  | some pr =>
    cases pr with
    | error m =>
      left
      unfold uploadHandler
      simp only []
      rw [errOut_table]
    | ok d =>
      cases hv : validate d with
      | error m =>
        left
        unfold uploadHandler
        simp only []
        rw [hv]
        simp only []
        rw [errOut_table]
      | ok fs =>
        unfold uploadHandler
        simp only []
        rw [hv]
        simp only []
        rcases runTxn_table fail rb init fs with h | ⟨h1, h2⟩
        · left; exact h
        · right; exact ⟨d, fs, rfl, hv, h1, h2⟩

theorem upload_500_rbAtt (fail : Nat → Option String) (rb : Bool) (init : List Row)
    (file : Option (Except String JSVal))
    (h : (uploadHandler fail rb init file).status = 500) :
    (uploadHandler fail rb init file).rollbackAttempted = true := by
  cases file with
  | none => cases h
  | some pr =>
    cases pr with
    | error m =>
      unfold uploadHandler
      simp only []
      rw [errOut_rbAtt]
    | ok d =>
      cases hv : validate d with
      | error m =>
        unfold uploadHandler
        simp only []
        rw [hv]
        simp only []
        rw [errOut_rbAtt]
      | ok fs =>
        unfold uploadHandler at h ⊢
        simp only [] at h ⊢
        rw [hv] at h ⊢
        simp only [] at h ⊢
        exact runTxn_rbAtt h

theorem upload_rb_swallow (fail : Nat → Option String) (init : List Row)
    (file : Option (Except String JSVal)) :
    (uploadHandler fail true init file).status = (uploadHandler fail false init file).status ∧
    (uploadHandler fail true init file).body = (uploadHandler fail false init file).body ∧
    (uploadHandler fail true init file).table = (uploadHandler fail false init file).table := by
  cases file with
  | none => exact ⟨rfl, rfl, rfl⟩
  | some pr =>
    cases pr with
    | error m =>
      unfold uploadHandler
      simp only []
      exact ⟨by rw [errOut_status, errOut_status], by rw [errOut_body, errOut_body],
        by rw [errOut_table, errOut_table]⟩
    | ok d =>
      cases hv : validate d with
      | error m =>
        unfold uploadHandler
        simp only []
        rw [hv]
        simp only []
        exact ⟨by rw [errOut_status, errOut_status], by rw [errOut_body, errOut_body],
          by rw [errOut_table, errOut_table]⟩
      | ok fs =>
        unfold uploadHandler
        simp only []
        rw [hv]
        simp only []
        exact runTxn_rb_swallow fail init fs

theorem upload_failAt_body (i : Nat) (m : String) (rb : Bool) (init : List Row)
    (d : JSVal) (fs : List JSVal) (hne : m ≠ "") (hv : validate d = .ok fs)
    (hnn : ∀ f ∈ fs, nullish f = false)
    (h : (uploadHandler (failAt i m) rb init (some (.ok d))).status = 500) :
    (uploadHandler (failAt i m) rb init (some (.ok d))).body = .err m := by
  unfold uploadHandler at h ⊢
  simp only [] at h ⊢
  rw [hv] at h ⊢
  simp only [] at h ⊢
  exact runTxn_failAt_body hne hnn h

/-! ### Claim theorems -/

/-- C1: Upload atomicity. For every POST /api/upload request, the
delete-then-insert sequence runs between BEGIN and COMMIT, so the feature
table ends either in its pre-upload state or fully replaced by the
uploaded rows (with status 200); whenever the response is 500 a rollback
was attempted; a failing rollback is swallowed — it changes neither the
status, the body nor the final table; and when the database fails at any
query with a non-empty message, the 500 response carries that original
error message. -/
theorem upload_atomicity_C1 :
    ∀ (fail : Nat → Option String) (rbFails : Bool) (init : List Row)
      (file : Option (Except String JSVal)),
      ((uploadHandler fail rbFails init file).table = init ∨
        ∃ d fs, file = some (.ok d) ∧ validate d = .ok fs ∧
          (uploadHandler fail rbFails init file).table = allRows fs ∧
          (uploadHandler fail rbFails init file).status = 200) ∧
      ((uploadHandler fail rbFails init file).status = 500 →
        (uploadHandler fail rbFails init file).rollbackAttempted = true) ∧
      ((uploadHandler fail true init file).status = (uploadHandler fail false init file).status ∧
        (uploadHandler fail true init file).body = (uploadHandler fail false init file).body ∧
        (uploadHandler fail true init file).table = (uploadHandler fail false init file).table) ∧
      (∀ (i : Nat) (m : String) (d : JSVal) (fs : List JSVal), m ≠ "" →
        file = some (.ok d) → validate d = .ok fs → (∀ f ∈ fs, nullish f = false) →
        (uploadHandler (failAt i m) rbFails init file).status = 500 →
        (uploadHandler (failAt i m) rbFails init file).body = .err m) :=
  fun fail rb init file =>
    ⟨upload_table_atomic fail rb init file,
     fun h => upload_500_rbAtt fail rb init file h,
     upload_rb_swallow fail init file,
     fun i m d fs hne hfile hv hnn h => by
       subst hfile
       exact upload_failAt_body i m rb init d fs hne hv hnn h⟩

/-- C1 witness: with the DELETE query (query index 1) failing with
message "boom" and the rollback itself failing, the handler reports a
rollback attempt and surfaces "boom". -/
theorem upload_atomicity_C1_witness :
    (uploadHandler (failAt 1 "boom") true [(geoSample, JSVal.jstr "Old")]
        (some (.ok (fcOf [featGood])))).rollbackAttempted = true ∧
    (uploadHandler (failAt 1 "boom") true [(geoSample, JSVal.jstr "Old")]
        (some (.ok (fcOf [featGood])))).body = .err "boom" := by
  refine ⟨?_, ?_⟩
  · exact (upload_atomicity_C1 (failAt 1 "boom") true [(geoSample, JSVal.jstr "Old")]
      (some (.ok (fcOf [featGood])))).2.1 rfl
  · exact (upload_atomicity_C1 (failAt 1 "boom") true [(geoSample, JSVal.jstr "Old")]
      (some (.ok (fcOf [featGood])))).2.2.2 1 "boom" (fcOf [featGood]) [featGood]
      (by decide) rfl rfl (by intro f hf; simp at hf; subst hf; rfl) rfl

theorem batches_small {xs : List JSVal} (h1 : xs ≠ []) (h2 : xs.length ≤ 500) :
    batches xs = [xs] := by
  rw [batches_eq, if_neg (by simpa using h1), List.take_of_length_le h2,
    List.drop_eq_nil_of_le h2, batches_eq]
  rfl

/-- C8: Upload cleanup: for every POST /api/upload request that received
a file, the temporary uploaded file is deleted after processing on every
path — success, parse failure, validation failure, or database failure. -/
theorem upload_cleanup_C8 :
    ∀ (fail : Nat → Option String) (rbFails : Bool) (init : List Row)
      (pr : Except String JSVal),
      (uploadHandler fail rbFails init (some pr)).fileDeleted = true := by
  intro fail rb init pr
  cases pr <;> rfl

/-- C9: for every syntactically valid FeatureCollection none of whose
features yields an insertable row (including an empty features array),
the upload still deletes all existing rows and commits — the table ends
empty — and responds 200 with a success message reporting 0 inserted
features; the executed SQL is exactly BEGIN, DELETE, COMMIT. -/
theorem upload_all_skipped_C9 :
    ∀ (rbFails : Bool) (init : List Row) (d : JSVal) (fs : List JSVal),
      validate d = .ok fs → (∀ f ∈ fs, nullish f = false ∧ rowOf f = none) →
      (uploadHandler noFail rbFails init (some (.ok d))).status = 200 ∧
      (uploadHandler noFail rbFails init (some (.ok d))).body =
        .msg "GeoJSON uploaded and database updated successfully! Inserted 0 features." ∧
      (uploadHandler noFail rbFails init (some (.ok d))).table = [] ∧
      (uploadHandler noFail rbFails init (some (.ok d))).trace =
        [SqlCmd.beginTxn, SqlCmd.deleteAll, SqlCmd.commitTxn] := by
  intro rb init d fs hv hf
  have hnn : ∀ f ∈ fs, nullish f = false := fun f hf' => (hf f hf').1
  rw [uploadHandler_noFail rb init d fs hv hnn]
  have hall : ∀ b ∈ batches fs, batchRowsPure b = [] := by
    intro b hb
    exact List.filterMap_eq_nil_iff.mpr (fun f hfb => (hf f (mem_of_mem_batches hb hfb)).2)
  have hins : insBatches (batches fs) = [] := by
    unfold insBatches
    refine List.filter_eq_nil_iff.mpr ?_
    intro rs hrs
    obtain ⟨b, hb, rfl⟩ := List.mem_map.mp hrs
    simp [hall b hb]
  have hcnt : countBatches (batches fs) = 0 := by
    unfold countBatches
    have hflt : (batches fs).filter (fun b => !(batchRowsPure b).isEmpty) = [] :=
      List.filter_eq_nil_iff.mpr (fun b hb => by simp [hall b hb])
    rw [hflt]
    rfl
  have hrows : allRows fs = [] :=
    List.filterMap_eq_nil_iff.mpr (fun f hf' => (hf f hf').2)
  rw [hins, hcnt, hrows]
  exact ⟨rfl, rfl, rfl, rfl⟩

/-- C9 witness: uploading a FeatureCollection with one label-less feature
and one null-geometry feature over a non-empty table empties the table
and answers 200. -/
theorem upload_all_skipped_C9_witness :
    (uploadHandler noFail false [(geoSample, JSVal.jstr "Old")]
        (some (.ok (fcOf [featNoType, featNullGeom])))).table = [] ∧
    (uploadHandler noFail false [(geoSample, JSVal.jstr "Old")]
        (some (.ok (fcOf [featNoType, featNullGeom])))).status = 200 := by
  have h := upload_all_skipped_C9 false [(geoSample, JSVal.jstr "Old")]
    (fcOf [featNoType, featNullGeom]) [featNoType, featNullGeom] rfl
    (by intro f hf; simp at hf; rcases hf with rfl | rfl <;> exact ⟨rfl, rfl⟩)
  exact ⟨h.2.2.1, h.1⟩

/-- C2 counterexample: the feature `featEmptyType` has a non-null
geometry and a non-null `properties.type` (the empty string), yet
uploading it inserts no row — the claimed iff between non-null fields and
row insertion fails. -/
theorem upload_skip_C2_counterexample :
    objLookup featEmptyType "geometry" = geoSample ∧
    geoSample ≠ JSVal.jnull ∧
    objLookup (objLookup featEmptyType "properties") "type" = JSVal.jstr "" ∧
    JSVal.jstr "" ≠ JSVal.jnull ∧
    (uploadHandler noFail false [] (some (.ok (fcOf [featEmptyType])))).status = 200 ∧
    (uploadHandler noFail false [] (some (.ok (fcOf [featEmptyType])))).table = [] := by
  have hup := uploadHandler_noFail false [] (fcOf [featEmptyType]) [featEmptyType] rfl
    (by intro f hf; simp at hf; subst hf; rfl)
  refine ⟨rfl, ?_, rfl, ?_, ?_, ?_⟩
  · intro h
    simp [geoSample] at h
  · intro h
    cases h
  · rw [hup]
  · rw [hup]
    rfl

/-- C2 (amended): a feature contributes one inserted row iff both its
geometry and its `properties.type` are *truthy* (not merely non-null); a
feature failing this is silently skipped — it is excluded from the
inserted rows and does not abort its batch: the final table is exactly
the rows of the features that pass the truthiness filter, in input
order. -/
theorem upload_skip_C2_amended :
    ∀ (rbFails : Bool) (init : List Row) (d : JSVal) (fs : List JSVal),
      validate d = .ok fs → (∀ f ∈ fs, nullish f = false) →
      (uploadHandler noFail rbFails init (some (.ok d))).table = fs.filterMap rowOf ∧
      ∀ f : JSVal,
        (rowOf f).isSome = (truthy (objLookup f "geometry") && truthy (propsType f)) := by
  intro rb init d fs hv hnn
  constructor
  · rw [uploadHandler_noFail rb init d fs hv hnn]
    rfl
  · intro f
    unfold rowOf
    simp only []
    by_cases hc : (truthy (objLookup f "geometry") && truthy (propsType f)) = true
    · rw [if_pos hc, hc]
      rfl
    · rw [if_neg hc]
      cases hb : truthy (objLookup f "geometry") && truthy (propsType f) with
      | true => exact absurd hb hc
      | false => rfl

/-- C2 witness: uploading one good feature and one label-less feature in
the same batch inserts exactly the good feature's row — the skipped
feature neither aborts the batch nor contributes a row. -/
theorem upload_skip_C2_witness :
    (uploadHandler noFail false [] (some (.ok (fcOf [featGood, featNoType])))).table =
      [(geoSample, JSVal.jstr "Residential")] := by
  have h := upload_skip_C2_amended false [] (fcOf [featGood, featNoType])
    [featGood, featNoType] rfl
    (by intro f hf; simp at hf; rcases hf with rfl | rfl <;> rfl)
  rw [h.1]
  rfl

/-- C3: the reported count equals the sum of the *input* sizes of every
batch that yielded at least one insertable row; batches of at most 500
features are formed in input order (they concatenate back to the feature
list); a batch yielding zero insertable rows contributes neither an
INSERT statement (the trace holds exactly one INSERT per contributing
batch) nor anything to the count. -/
theorem upload_count_C3 :
    ∀ (rbFails : Bool) (init : List Row) (d : JSVal) (fs : List JSVal),
      validate d = .ok fs → (∀ f ∈ fs, nullish f = false) →
      (uploadHandler noFail rbFails init (some (.ok d))).status = 200 ∧
      (uploadHandler noFail rbFails init (some (.ok d))).body =
        .msg (successMsg (((batches fs).filter
          (fun b => !(batchRowsPure b).isEmpty)).map List.length).sum) ∧
      (∀ b ∈ batches fs, b.length ≤ 500) ∧
      (batches fs).flatten = fs ∧
      (uploadHandler noFail rbFails init (some (.ok d))).trace.countP isInsert =
        ((batches fs).filter (fun b => !(batchRowsPure b).isEmpty)).length := by
  intro rb init d fs hv hnn
  rw [uploadHandler_noFail rb init d fs hv hnn]
  refine ⟨rfl, rfl, fun b hb => length_le_of_mem_batches hb, batches_flatten fs, ?_⟩
  have hlen : (insBatches (batches fs)).length =
      ((batches fs).filter (fun b => !(batchRowsPure b).isEmpty)).length := by
    unfold insBatches
    rw [List.filter_map, List.length_map]
    rfl
  rw [← hlen]
  simp [List.countP_append, List.countP_map, isInsert]

/-- C3 witness: a batch of two input features with only one insertable
row reports 2 inserted features (the batch's input size) and issues one
INSERT. -/
theorem upload_count_C3_witness :
    (uploadHandler noFail false [] (some (.ok (fcOf [featGood, featNoType])))).body =
      .msg "GeoJSON uploaded and database updated successfully! Inserted 2 features." ∧
    (uploadHandler noFail false [] (some (.ok (fcOf [featGood, featNoType])))).trace.countP
      isInsert = 1 := by
  have h := upload_count_C3 false [] (fcOf [featGood, featNoType]) [featGood, featNoType]
    rfl (by intro f hf; simp at hf; rcases hf with rfl | rfl <;> rfl)
  have hb : batches [featGood, featNoType] = [[featGood, featNoType]] :=
    batches_small (by simp) (by simp)
  constructor
  · rw [h.2.1, hb]
    rfl
  · rw [h.2.2.2.2, hb]
    rfl

/-- C10: a feature whose `properties.type` is present but falsy (the
empty string, 0, or false) is skipped exactly as if the label were
absent, because `f.properties?.type || null` coalesces on truthiness;
a row is built only when both the geometry and the label are truthy. -/
theorem upload_falsy_type_C10 :
    ∀ f : JSVal,
      (truthy (propsType f) = false → rowOf f = none) ∧
      (∀ r, rowOf f = some r →
        truthy (propsType f) = true ∧ truthy (objLookup f "geometry") = true) := by
  intro f
  constructor
  · intro h
    unfold rowOf
    simp [h]
  · intro r h
    unfold rowOf at h
    simp only [] at h
    by_cases hc : (truthy (objLookup f "geometry") && truthy (propsType f)) = true
    · simp at hc
      exact ⟨hc.2, hc.1⟩
    · rw [if_neg hc] at h
      cases h

/-- C10 witness: the empty-string, zero and false labels are all
skipped. -/
theorem upload_falsy_type_C10_witness :
    rowOf featEmptyType = none ∧ rowOf featZeroType = none ∧ rowOf featFalseType = none :=
  ⟨(upload_falsy_type_C10 featEmptyType).1 rfl,
   (upload_falsy_type_C10 featZeroType).1 rfl,
   (upload_falsy_type_C10 featFalseType).1 rfl⟩

/-- C4: Pagination contract: with the database up and the query
parameters within the spec's input contract (limit a positive integer or
defaulted, offset non-negative or defaulted), GET /api/land_use answers
200 with a FeatureCollection holding the rows of the table in ascending
identifier order, skipping the first `offset` and taking at most `limit`
of them; `limit` defaults to 1000 and `offset` to 0 when absent or
non-numeric. -/
theorem land_use_pagination_C4 :
    ∀ (tbl : List LRow) (ql qo : Option String),
      0 ≤ effLimit ql → 0 ≤ effOffset qo →
      (landUseHandler none tbl ql qo).1 = 200 ∧
      (landUseHandler none tbl ql qo).2 =
        .fc (((sortById tbl).drop (effOffset qo).toNat).take (effLimit ql).toNat) ∧
      (∀ fs, (landUseHandler none tbl ql qo).2 = .fc fs →
        fs.length ≤ (effLimit ql).toNat ∧ List.Sorted leId fs) ∧
      (sortById tbl).Perm tbl ∧ List.Sorted leId (sortById tbl) ∧
      effLimit none = 1000 ∧ effOffset none = 0 ∧
      (∀ s, parseIntJS s = none → effLimit (some s) = 1000 ∧ effOffset (some s) = 0) := by
  intro tbl ql qo hl ho
  have hpage : sqlPage tbl (effOffset qo) (effLimit ql) =
      .ok (((sortById tbl).drop (effOffset qo).toNat).take (effLimit ql).toNat) := by
    unfold sqlPage
    rw [if_neg (by omega), if_neg (by omega)]
  have hsorted : List.Sorted leId (sortById tbl) := List.sorted_insertionSort leId tbl
  have hhandler : landUseHandler none tbl ql qo =
      (200, .fc (((sortById tbl).drop (effOffset qo).toNat).take (effLimit ql).toNat)) := by
    unfold landUseHandler
    simp only []
    rw [hpage]
  refine ⟨by rw [hhandler], by rw [hhandler], ?_, List.perm_insertionSort leId tbl, hsorted,
    rfl, rfl, fun s hs => by simp [effLimit, effOffset, hs, jsOrInt]⟩
  intro fs hfs
  rw [hhandler] at hfs
  simp only [QRes.fc.injEq] at hfs
  subst hfs
  constructor
  · exact List.length_take_le _ _
  · exact List.Pairwise.sublist
      ((List.take_sublist _ _).trans (List.drop_sublist _ _)) hsorted

/-- C4 witness: a two-row table queried with limit "1" and no offset
answers 200 with exactly the first row in id order. -/
theorem land_use_pagination_C4_witness :
    (landUseHandler none [lrow2, lrow1] (some "1") none).1 = 200 ∧
    (landUseHandler none [lrow2, lrow1] (some "1") none).2 = .fc [lrow1] := by
  have h := land_use_pagination_C4 [lrow2, lrow1] (some "1") none (by decide) (by decide)
  refine ⟨h.1, ?_⟩
  rw [h.2.1]
  rfl

/-- C5: Area endpoint contract: with the database up, if no row matches
the requested type case-insensitively the response is 404 with an error
naming the type; otherwise it is 200 carrying the category name, the
summed geodesic area in square meters, exactly that sum divided by 10000
as hectares, and the count of matching rows. -/
theorem area_contract_C5 :
    ∀ (tbl : List LRow) (t : String),
      ((areaMatching tbl t).length = 0 →
        areaHandler none tbl t =
          (404, .err ("No features found with type '" ++ t ++ "'"))) ∧
      ((areaMatching tbl t).length ≠ 0 →
        areaHandler none tbl t =
          (200, .ok t ((areaMatching tbl t).map LRow.area).sum
            (((areaMatching tbl t).map LRow.area).sum / 10000)
            (areaMatching tbl t).length)) := by
  intro tbl t
  constructor
  · intro h
    unfold areaHandler
    simp only []
    rw [if_pos h]
  · intro h
    unfold areaHandler
    simp only []
    rw [if_neg h]

/-- C5 witness: one matching "Forest" row of 20000 m² yields 200 with
2 hectares and count 1; a type matching nothing yields the 404 error
naming it. -/
theorem area_contract_C5_witness :
    areaHandler none [lrow1, lrow3] "forest" = (200, .ok "forest" 20000 2 1) ∧
    areaHandler none [lrow1, lrow3] "Urban" =
      (404, .err "No features found with type 'Urban'") := by
  constructor
  · rw [(area_contract_C5 [lrow1, lrow3] "forest").2 (by decide)]
    rw [show areaMatching [lrow1, lrow3] "forest" = [lrow3] from rfl]
    norm_num [lrow3]
  · exact (area_contract_C5 [lrow1, lrow3] "Urban").1 (by decide)

/-- C6: case-insensitive category matching: two category strings with
the same lowercasing select exactly the same rows in the filter
endpoint's WHERE clause and in the area endpoint's WHERE clause, and the
two endpoints use the same selection. -/
theorem case_insensitive_C6 :
    ∀ (tbl : List LRow) (s t : String), lowerStr s = lowerStr t →
      filterSel tbl s = filterSel tbl t ∧
      areaMatching tbl s = areaMatching tbl t ∧
      filterSel tbl s = areaMatching tbl s := by
  intro tbl s t h
  refine ⟨?_, ?_, rfl⟩
  · unfold filterSel
    rw [h]
  · unfold areaMatching
    rw [h]

/-- C6 witness: "Residential" and "RESIDENTIAL" select the same rows
(both case variants of the category), in both endpoints. -/
theorem case_insensitive_C6_witness :
    filterSel [lrow1, lrow2, lrow3] "Residential" =
      filterSel [lrow1, lrow2, lrow3] "RESIDENTIAL" ∧
    areaMatching [lrow1, lrow2, lrow3] "Residential" =
      areaMatching [lrow1, lrow2, lrow3] "RESIDENTIAL" ∧
    filterSel [lrow1, lrow2, lrow3] "Residential" = [lrow1, lrow2] := by
  have h := case_insensitive_C6 [lrow1, lrow2, lrow3] "Residential" "RESIDENTIAL" rfl
  exact ⟨h.1, h.2.1, rfl⟩

/-- C7 counterexample: a land_use request whose database query fails
with message "connection refused" answers 500 with the fixed text
"Database error fetching land use", not the triggering error's
message — refuting that every endpoint surfaces the error message. -/
theorem error_surfacing_C7_counterexample :
    landUseHandler (some "connection refused") [] none none =
      (500, .err "Database error fetching land use") ∧
    QRes.err "Database error fetching land use" ≠ QRes.err "connection refused" :=
  ⟨rfl, by decide⟩

/-- C7 (amended): on a database failure every endpoint answers 500; the
upload endpoint surfaces the triggering error's (non-empty) message
unsanitized in the JSON error field, while the land_use, filter and area
endpoints answer fixed generic messages. -/
theorem error_surfacing_C7_amended :
    ∀ (m : String) (tbl : List LRow) (t : String) (ql qo : Option String),
      landUseHandler (some m) tbl ql qo = (500, .err "Database error fetching land use") ∧
      filterHandler (some m) tbl t ql qo = (500, .err "Database error filtering land use") ∧
      areaHandler (some m) tbl t = (500, .err "Database error calculating area") ∧
      (∀ (i : Nat) (rbFails : Bool) (init : List Row) (d : JSVal) (fs : List JSVal),
        m ≠ "" → validate d = .ok fs → (∀ f ∈ fs, nullish f = false) →
        (uploadHandler (failAt i m) rbFails init (some (.ok d))).status = 500 →
        (uploadHandler (failAt i m) rbFails init (some (.ok d))).body = .err m) := by
  intro m tbl t ql qo
  exact ⟨rfl, rfl, rfl,
    fun i rb init d fs hne hv hnn h => upload_failAt_body i m rb init d fs hne hv hnn h⟩

/-- C7 witness: with the first query failing with "connection refused",
the three read endpoints answer their fixed texts and the upload endpoint
surfaces the message itself. -/
theorem error_surfacing_C7_witness :
    landUseHandler (some "connection refused") [lrow1] (some "10") none =
      (500, .err "Database error fetching land use") ∧
    areaHandler (some "connection refused") [lrow1] "Residential" =
      (500, .err "Database error calculating area") ∧
    (uploadHandler (failAt 0 "connection refused") false [] (some (.ok (fcOf [])))).body =
      .err "connection refused" := by
  have h := error_surfacing_C7_amended "connection refused" [lrow1] "Residential"
    (some "10") none
  exact ⟨h.1, h.2.2.1,
    h.2.2.2 0 false [] (fcOf []) [] (by decide) rfl (by intro f hf; cases hf) rfl⟩

end Landuse
